import Mathlib

/-!
# Chat relay (`main.go`): connection registry, broadcast relay, shutdown

A shallow embedding of `main.go`.

* Go `string` and `[]byte` values are byte sequences (`GoString`); the
  conversions `string(b)` and `[]byte(s)` are the identity on them.
* A `*websocket.Conn` is modelled by its identity (`Conn`).
* The global `Users` map is a finite map with unique keys (`Registry`);
  `Users[user] = conn` is `AList.insert`, `delete(Users, user)` is
  `AList.erase`, and `for user, conn := range Users` visits `entries`
  (Go leaves the iteration order unspecified, so the theorems below speak of
  membership and of counts, never of positions).
* Calls into the websocket, Redis and HTTP libraries and into `log` are
  recorded as `Event`s, in program order; whether such a call returns an error
  is an input of the model.
* Each function that runs under `mu` is one atomic step on `State`.
-/

namespace RedisChat

/-- A Go `string` or `[]byte`: a finite sequence of bytes. -/
abbrev GoString := List (Fin 256)

/-- The identity of a `*websocket.Conn`. -/
abbrev Conn := Nat

/-- The global `Users = make(map[string]*websocket.Conn)`. -/
abbrev Registry := AList (fun _ : GoString => Conn)

/-- The byte `':'`. -/
def colon : Fin 256 := 58

/-- The constant `chatChannel = "chats"`. -/
def chatChannel : GoString := [99, 104, 97, 116, 115]

/-- The lines written through `log.Printf` and `log.Println`. -/
inductive LogLine
  | listeningToRedis
  | upgradeFailed
  | userJoined (user : GoString)
  | userDisconnected (user : GoString)
  | closedByUser (user : GoString)
  | readError (user : GoString)
  | failedPublish
  | invalidFormat
  | failedSend (user : GoString)
  | shutdownInitiated
  | closedConnection (user : GoString)
  | failedUnsubscribe
  | failedShutdown
  | shutDownOk
  deriving DecidableEq, Repr

/-- The observable effects of the program. -/
inductive Event
  /-- A line of the log. -/
  | log (line : LogLine)
  /-- The call `client.Publish(ctx, channel, payload)`. -/
  | publish (channel payload : GoString)
  /-- The call `conn.WriteMessage(websocket.TextMessage, msg)` made by the
  fan-out loop while it visits the registry entry `(user, conn)`. -/
  | write (user : GoString) (conn : Conn) (msg : GoString)
  /-- The call `conn.Close()`. -/
  | close (conn : Conn)
  /-- The call `sub.Unsubscribe(ctx, channel)`. -/
  | unsubscribe (channel : GoString)
  /-- The call `server.Shutdown(ctx)`, `ctx` carrying a timeout in seconds. -/
  | serverShutdown (timeoutSeconds : Nat)
  deriving DecidableEq, Repr

/-- The shared state: the `Users` map, and whether the HTTP listener of
`server` is still open (`ListenAndServe` opens it, `server.Shutdown` closes it). -/
structure State where
  Users : Registry
  listening : Bool
  deriving DecidableEq

/-- The state when `main` has started the broadcaster and the server. -/
def State.init : State := { Users := ∅, listening := true }

/-! ## Wire format -/

/-- The call `strings.IndexByte(s, ':')`: the position of the first `':'`. -/
def indexColon : GoString → Option Nat
  | [] => none
  | b :: rest => if b = colon then some 0 else (indexColon rest).map (· + 1)

/-- The call `strings.SplitN(s, ":", 2)`: `[s]` when `s` has no `':'`,
otherwise what is before the first `':'` and what is after it. -/
def SplitN2 (s : GoString) : List GoString :=
  match indexColon s with
  | none => [s]
  | some m => [s.take m, s.drop (m + 1)]

/-- The call `fmt.Sprintf("%s:%s", user, string(message))`. -/
def Sprintf (user message : GoString) : GoString := user ++ colon :: message

/-! ## `publishMessage` -/

/-- The function `publishMessage`; `err` tells whether `Publish` fails. -/
def publishMessage (err : Bool) (user message : GoString) : List Event :=
  Event.publish chatChannel (Sprintf user message) ::
    (if err then [Event.log LogLine.failedPublish] else [])

/-! ## `broadcastMessage` -/

/-- The loop `for user, conn := range Users` of `broadcastMessage`;
`werr user conn` tells whether the write made for that entry fails. -/
def broadcastLoop (werr : GoString → Conn → Bool) (fromUser message : GoString) :
    List (Sigma fun _ : GoString => Conn) → List Event
  | [] => []
  | ⟨user, conn⟩ :: rest =>
    (if user ≠ fromUser then
      Event.write user conn message ::
        (if werr user conn then [Event.log (LogLine.failedSend user)] else [])
    else []) ++ broadcastLoop werr fromUser message rest

/-- The function `broadcastMessage`. -/
def broadcastMessage (werr : GoString → Conn → Bool) (payload : GoString) (s : State) :
    State × List Event :=
  match SplitN2 payload with
  | [fromUser, message] => (s, broadcastLoop werr fromUser message s.Users.entries)
  | _ => (s, [Event.log LogLine.invalidFormat])

/-- The loop `for msg := range sub.Channel()` of `startChatBroadcaster`: every
payload delivered by the subscription is passed to `broadcastMessage`;
`werr k` decides the write errors of the `k`-th payload. -/
def broadcasterLoop (werr : Nat → GoString → Conn → Bool) :
    Nat → List GoString → State → State × List Event
  | _, [], s => (s, [])
  | k, payload :: rest, s =>
    let r := broadcastMessage (werr k) payload s
    let r2 := broadcasterLoop werr (k + 1) rest r.1
    (r2.1, r.2 ++ r2.2)

/-- The function `startChatBroadcaster`, run on the payloads that the
subscription delivers. -/
def startChatBroadcaster (werr : Nat → GoString → Conn → Bool) (payloads : List GoString)
    (s : State) : State × List Event :=
  ((broadcasterLoop werr 0 payloads s).1,
    Event.log LogLine.listeningToRedis :: (broadcasterLoop werr 0 payloads s).2)

/-! ## `handleChat` -/

/-- Lines 74-77 of `handleChat`: `Users[user] = conn` under `mu`. -/
def handleChat_register (user : GoString) (conn : Conn) (s : State) : State × List Event :=
  ({ s with Users := s.Users.insert user conn }, [Event.log (LogLine.userJoined user)])

/-- The deferred function of `handleChat`: `delete(Users, user)` under `mu`,
then `conn.Close()`. -/
def handleChat_deferred (user : GoString) (conn : Conn) (s : State) : State × List Event :=
  ({ s with Users := s.Users.erase user },
    [Event.close conn, Event.log (LogLine.userDisconnected user)])

/-- The read loop of `handleChat`: each frame read is published; the read
error that follows the last frame ends the loop (`closeErr` tells which of
the two log lines it gets). `perr k` tells whether the `k`-th publish fails. -/
def handleChat_loop (perr : Nat → Bool) (closeErr : Bool) (user : GoString) :
    Nat → List GoString → List Event
  | _, [] => [Event.log (if closeErr then LogLine.closedByUser user else LogLine.readError user)]
  | k, message :: rest =>
    publishMessage (perr k) user message ++ handleChat_loop perr closeErr user (k + 1) rest

/-- The function `handleChat` run without interleaving: `upgrade` is the
connection returned by `upgrader.Upgrade` (`none` when it fails), `frames` are
the messages read before the read error. -/
def handleChat (perr : Nat → Bool) (closeErr : Bool) (user : GoString) (upgrade : Option Conn)
    (frames : List GoString) (s : State) : State × List Event :=
  match upgrade with
  | none => (s, [Event.log LogLine.upgradeFailed])
  | some conn =>
    let r := handleChat_register user conn s
    let evs := handleChat_loop perr closeErr user 0 frames
    let r2 := handleChat_deferred user conn r.1
    (r2.1, r.2 ++ evs ++ r2.2)

/-- The HTTP server hands a new request to `handleChat` only while its
listener is open; a request that cannot be accepted changes nothing. -/
def accept (user : GoString) (conn : Conn) (s : State) : Option (State × List Event) :=
  if s.listening then some (handleChat_register user conn s) else none

/-! ## `shutdown` -/

/-- The loop `for user, conn := range Users` of `shutdown`. -/
def closeLoop : List (Sigma fun _ : GoString => Conn) → List Event
  | [] => []
  | ⟨user, conn⟩ :: rest =>
    Event.close conn :: Event.log (LogLine.closedConnection user) :: closeLoop rest

/-- Lines 147-153 of `shutdown`: the close-all step, under `mu`. -/
def shutdown_closeAll (s : State) : State × List Event :=
  (s, closeLoop s.Users.entries)

/-- Lines 155-158 of `shutdown`: `sub.Unsubscribe(ctx, chatChannel)`. -/
def shutdown_unsubscribe (err : Bool) (s : State) : State × List Event :=
  (s,
    Event.unsubscribe chatChannel :: (if err then [Event.log LogLine.failedUnsubscribe] else []))

/-- Lines 160-164 of `shutdown`: `server.Shutdown(ctx)` with the context of
line 144 (`10*time.Second`); it closes the listener. -/
def shutdown_server (err : Bool) (s : State) : State × List Event :=
  ({ s with listening := false },
    [Event.serverShutdown 10,
     Event.log (if err then LogLine.failedShutdown else LogLine.shutDownOk)])

/-- The function `shutdown`, from the receipt of the signal on. -/
def shutdown (unsubErr shutErr : Bool) (s : State) : State × List Event :=
  let r1 := shutdown_closeAll s
  let r2 := shutdown_unsubscribe unsubErr r1.1
  let r3 := shutdown_server shutErr r2.1
  (r3.1, Event.log LogLine.shutdownInitiated :: (r1.2 ++ r2.2 ++ r3.2))

/-! ## Sequences of registry operations -/

/-- The two mutations of `Users` in the program. -/
inductive RegOp
  /-- The assignment `Users[user] = conn` of `handleChat`. -/
  | register (user : GoString) (conn : Conn)
  /-- The call `delete(Users, user)` made by the deferred function of the pump
  that serves `conn` under the name `user`. -/
  | unregister (user : GoString) (conn : Conn)
  deriving DecidableEq, Repr

/-- One registry operation, as `handleChat` performs it. -/
def RegOp.apply (s : State) : RegOp → State
  | RegOp.register user conn => (handleChat_register user conn s).1
  | RegOp.unregister user conn => (handleChat_deferred user conn s).1

/-- A sequence of registry operations, oldest first. -/
def runOps (ops : List RegOp) (s : State) : State := ops.foldl RegOp.apply s

/-! ## Concrete data -/

/-- The bytes of `"alice"`. -/
def alice : GoString := [97, 108, 105, 99, 101]
/-- The bytes of `"bob"`. -/
def bob : GoString := [98, 111, 98]
/-- The bytes of `"carol"`. -/
def carol : GoString := [99, 97, 114, 111, 108]
/-- The bytes of `"hello"`. -/
def hello : GoString := [104, 101, 108, 108, 111]
/-- The bytes of `"hi:there"`. -/
def hiThere : GoString := [104, 105, 58, 116, 104, 101, 114, 101]
/-- The bytes of `"malformed"`. -/
def malformed : GoString := [109, 97, 108, 102, 111, 114, 109, 101, 100]
/-- The bytes of `"a:b"`. -/
def aColonB : GoString := [97, 58, 98]
/-- The bytes of `"a"`. -/
def justA : GoString := [97]

/-- The registry after `"alice"` registers connection 1 and `"bob"` connection 2. -/
def aliceBob : State :=
  (handleChat_register bob 2 (handleChat_register alice 1 State.init).1).1

/-- The registry after `"a"` registers connection 1 and `"a:b"` connection 2. -/
def colonUsers : State :=
  (handleChat_register aColonB 2 (handleChat_register justA 1 State.init).1).1

/-- No write fails. -/
def noErr : GoString → Conn → Bool := fun _ _ => false

/-- Every write fails. -/
def allErr : GoString → Conn → Bool := fun _ _ => true

/-- The bytes of `"b:hello"`. -/
def bHello : GoString := [98, 58, 104, 101, 108, 108, 111]

/-! ## Lemmas on the wire format -/

theorem indexColon_of_not_mem {s : GoString} (h : colon ∉ s) : indexColon s = none := by
  induction s with
  | nil => rfl
  | cons b rest ih =>
    have hb : b ≠ colon := fun e => h (by simp [e])
    have hr : colon ∉ rest := fun e => h (by simp [e])
    simp [indexColon, hb, ih hr]

theorem indexColon_append (sender body : GoString) (h : colon ∉ sender) :
    indexColon (sender ++ colon :: body) = some sender.length := by
  induction sender with
  | nil => simp [indexColon]
  | cons b rest ih =>
    have hb : b ≠ colon := fun e => h (by simp [e])
    have hr : colon ∉ rest := fun e => h (by simp [e])
    simp [indexColon, hb, ih hr]

theorem SplitN2_of_not_mem {s : GoString} (h : colon ∉ s) : SplitN2 s = [s] := by
  simp [SplitN2, indexColon_of_not_mem h]

theorem SplitN2_Sprintf (sender body : GoString) (h : colon ∉ sender) :
    SplitN2 (Sprintf sender body) = [sender, body] := by
  simp [SplitN2, Sprintf, indexColon_append sender body h]

/-! ## Lemmas on the fan-out loop -/

theorem mem_broadcastLoop_write (werr : GoString → Conn → Bool) (fromUser message : GoString)
    (v : GoString) (c : Conn) (b : GoString) (l : List (Sigma fun _ : GoString => Conn)) :
    Event.write v c b ∈ broadcastLoop werr fromUser message l ↔
      (Sigma.mk v c ∈ l ∧ v ≠ fromUser ∧ b = message) := by
  induction l with
  | nil => simp [broadcastLoop]
  | cons e rest ih =>
    obtain ⟨user, conn⟩ := e
    by_cases hu : user = fromUser
    · subst hu
      simp only [broadcastLoop, ne_eq, not_true_eq_false, if_false, List.nil_append, ih,
        List.mem_cons, Sigma.mk.inj_iff, heq_eq_eq]
      constructor
      · rintro ⟨h1, h2, h3⟩
        exact ⟨Or.inr h1, h2, h3⟩
      · rintro ⟨h1 | h1, h2, h3⟩
        · exact absurd h1.1 h2
        · exact ⟨h1, h2, h3⟩
    · by_cases hw : werr user conn = true
      · simp only [broadcastLoop, ne_eq, hu, not_false_eq_true, if_true, hw, List.cons_append,
          List.nil_append, List.mem_cons, Event.write.injEq, ih, Sigma.mk.inj_iff, heq_eq_eq,
          reduceCtorEq, false_or]
        constructor
        · rintro (⟨h1, h2, h3⟩ | ⟨h1, h2, h3⟩)
          · exact ⟨Or.inl ⟨h1, h2⟩, h1 ▸ hu, h3⟩
          · exact ⟨Or.inr h1, h2, h3⟩
        · rintro ⟨⟨h1, h2⟩ | h1, h3, h4⟩
          · exact Or.inl ⟨h1, h2, h4⟩
          · exact Or.inr ⟨h1, h3, h4⟩
      · simp only [broadcastLoop, ne_eq, hu, not_false_eq_true, if_true, hw, List.cons_append,
          List.nil_append, List.mem_cons, Event.write.injEq, ih, Sigma.mk.inj_iff, heq_eq_eq,
          Bool.false_eq_true, if_false]
        constructor
        · rintro (⟨h1, h2, h3⟩ | ⟨h1, h2, h3⟩)
          · exact ⟨Or.inl ⟨h1, h2⟩, h1 ▸ hu, h3⟩
          · exact ⟨Or.inr h1, h2, h3⟩
        · rintro ⟨⟨h1, h2⟩ | h1, h3, h4⟩
          · exact Or.inl ⟨h1, h2, h4⟩
          · exact Or.inr ⟨h1, h3, h4⟩

theorem count_broadcastLoop_write (werr : GoString → Conn → Bool) (fromUser message : GoString)
    (v : GoString) (c : Conn) (hv : v ≠ fromUser) (l : List (Sigma fun _ : GoString => Conn)) :
    List.count (Event.write v c message) (broadcastLoop werr fromUser message l) =
      List.count (Sigma.mk v c) l := by
  induction l with
  | nil => simp [broadcastLoop]
  | cons e rest ih =>
    obtain ⟨user, conn⟩ := e
    by_cases hu : user = fromUser
    · subst hu
      have hne : ¬ (Sigma.mk user conn : Sigma fun _ : GoString => Conn) = Sigma.mk v c := by
        intro e
        exact hv (Sigma.mk.inj_iff.1 e).1.symm
      simp [broadcastLoop, ih, List.count_cons, hne]
    · by_cases hw : werr user conn = true
      · by_cases he : (Sigma.mk user conn : Sigma fun _ : GoString => Conn) = Sigma.mk v c
        · obtain ⟨h1, h2⟩ := Sigma.mk.inj_iff.1 he
          cases h1
          cases h2
          simp [broadcastLoop, hu, hw, ih, List.count_cons]
        · have he2 : ¬ (user = v ∧ conn = c) := by
            rintro ⟨h1, h2⟩
            exact he (by rw [h1, h2])
          simp [broadcastLoop, hu, hw, ih, List.count_cons, he, he2]
      · by_cases he : (Sigma.mk user conn : Sigma fun _ : GoString => Conn) = Sigma.mk v c
        · obtain ⟨h1, h2⟩ := Sigma.mk.inj_iff.1 he
          cases h1
          cases h2
          simp [broadcastLoop, hu, hw, ih, List.count_cons]
        · have he2 : ¬ (user = v ∧ conn = c) := by
            rintro ⟨h1, h2⟩
            exact he (by rw [h1, h2])
          simp [broadcastLoop, hu, hw, ih, List.count_cons, he, he2]

theorem count_entries_of_lookup (r : Registry) (v : GoString) (c : Conn)
    (h : r.lookup v = some c) : List.count (Sigma.mk v c) r.entries = 1 :=
  List.count_eq_one_of_mem r.nodupKeys.nodup (AList.mem_lookup_iff.1 h)

theorem publishMessage_payload (err : Bool) (u m ch p : GoString)
    (h : Event.publish ch p ∈ publishMessage err u m) : p = Sprintf u m := by
  cases err <;> simp [publishMessage] at h <;> exact h.2

theorem broadcastMessage_of_split (werr : GoString → Conn → Bool) (payload sender body : GoString)
    (s : State) (h : SplitN2 payload = [sender, body]) :
    broadcastMessage werr payload s = (s, broadcastLoop werr sender body s.Users.entries) := by
  simp [broadcastMessage, h]

theorem broadcastMessage_state (werr : GoString → Conn → Bool) (payload : GoString) (s : State) :
    (broadcastMessage werr payload s).1 = s := by
  unfold broadcastMessage
  split <;> rfl

/-- What a decoded payload fans out: one write of `body` per entry whose key is
not `sender`, and no other write. -/
theorem fanout_spec (werr : GoString → Conn → Bool) (payload sender body : GoString) (s : State)
    (h : SplitN2 payload = [sender, body]) :
    (∀ v c, s.Users.lookup v = some c → v ≠ sender →
      List.count (Event.write v c body) (broadcastMessage werr payload s).2 = 1) ∧
    (∀ v c b, Event.write v c b ∈ (broadcastMessage werr payload s).2 →
      v ≠ sender ∧ b = body ∧ s.Users.lookup v = some c) := by
  rw [broadcastMessage_of_split werr payload sender body s h]
  refine ⟨?_, ?_⟩
  · intro v c hl hv
    show List.count _ (broadcastLoop werr sender body s.Users.entries) = 1
    rw [count_broadcastLoop_write werr sender body v c hv, count_entries_of_lookup _ v c hl]
  · intro v c b hm
    have hm2 := (mem_broadcastLoop_write werr sender body v c b s.Users.entries).1 hm
    exact ⟨hm2.2.1, hm2.2.2, AList.mem_lookup_iff.2 hm2.1⟩

theorem broadcasterLoop_state (werr : Nat → GoString → Conn → Bool) (ps : List GoString) :
    ∀ (k : Nat) (s : State), (broadcasterLoop werr k ps s).1 = s := by
  induction ps with
  | nil => intro k s; rfl
  | cons p rest ih =>
    intro k s
    simp only [broadcasterLoop]
    rw [ih, broadcastMessage_state]

theorem startChatBroadcaster_state (werr : Nat → GoString → Conn → Bool) (ps : List GoString)
    (s : State) : (startChatBroadcaster werr ps s).1 = s :=
  broadcasterLoop_state werr ps 0 s

theorem mem_closeLoop (c : Conn) (l : List (Sigma fun _ : GoString => Conn)) :
    Event.close c ∈ closeLoop l ↔ ∃ u, Sigma.mk u c ∈ l := by
  induction l with
  | nil => simp [closeLoop]
  | cons e rest ih =>
    obtain ⟨user, conn⟩ := e
    simp only [closeLoop, List.mem_cons, Event.close.injEq, reduceCtorEq, false_or, ih,
      Sigma.mk.inj_iff, heq_eq_eq]
    constructor
    · rintro (h | ⟨u, h⟩)
      · exact ⟨user, Or.inl ⟨rfl, h⟩⟩
      · exact ⟨u, Or.inr h⟩
    · rintro ⟨u, ⟨_, h⟩ | h⟩
      · exact Or.inl h
      · exact Or.inr ⟨u, h⟩

theorem closeLoop_log_or_close (l : List (Sigma fun _ : GoString => Conn)) :
    ∀ e ∈ closeLoop l, (∃ line, e = Event.log line) ∨ (∃ c, e = Event.close c) := by
  induction l with
  | nil => simp [closeLoop]
  | cons e rest ih =>
    obtain ⟨user, conn⟩ := e
    intro e he
    simp only [closeLoop, List.mem_cons] at he
    rcases he with h | h | h
    · exact Or.inr ⟨conn, h⟩
    · exact Or.inl ⟨_, h⟩
    · exact ih e h

theorem erase_of_not_mem (r : Registry) (u : GoString) (h : u ∉ r) : r.erase u = r :=
  AList.ext (List.kerase_of_not_mem_keys h)

theorem erase_idem (r : Registry) (u : GoString) : (r.erase u).erase u = r.erase u :=
  erase_of_not_mem _ _ (by simp)

/-- What the deferred function of a pump does when the name has been registered
again in the meantime: it removes the entry of the newer connection. -/
theorem deferred_after_reregister (s : State) (u : GoString) (c1 c2 : Conn) :
    (handleChat_register u c2 (handleChat_register u c1 s).1).1.Users.lookup u = some c2 ∧
    (handleChat_deferred u c1
      (handleChat_register u c2 (handleChat_register u c1 s).1).1).1.Users.lookup u = none := by
  simp [handleChat_register, handleChat_deferred]

/-! ## The claims -/

/-- C1 (amended): for every registry state, every user identity `u` that
contains no `':'` and every message frame `m`, relaying through
`broadcastMessage` the payload that `publishMessage u m` puts on the bus
writes exactly the bytes `m`, once, for every registered user other than `u`,
makes no write for the entry of `u`, and writes nothing to the connection
of `u` (which no other user holds). -/
theorem relay_delivers_to_others (s : State) (werr : GoString → Conn → Bool) (err : Bool)
    (u m p : GoString) (hu : colon ∉ u)
    (hp : Event.publish chatChannel p ∈ publishMessage err u m) :
    (∀ v c, s.Users.lookup v = some c → v ≠ u →
      List.count (Event.write v c m) (broadcastMessage werr p s).2 = 1) ∧
    (∀ v c b, Event.write v c b ∈ (broadcastMessage werr p s).2 →
      v ≠ u ∧ b = m ∧ s.Users.lookup v = some c) ∧
    (∀ cu, (∀ e ∈ s.Users.entries, e.2 = cu → e.1 = u) →
      ∀ v b, Event.write v cu b ∉ (broadcastMessage werr p s).2) := by
  have hp2 := publishMessage_payload err u m chatChannel p hp
  subst hp2
  have hs := fanout_spec werr (Sprintf u m) u m s (SplitN2_Sprintf u m hu)
  refine ⟨hs.1, hs.2, ?_⟩
  intro cu hinj v b hm
  have h3 := hs.2 v cu b hm
  exact h3.1 (hinj ⟨v, cu⟩ (AList.mem_lookup_iff.1 h3.2.2) rfl)

/-- Witness of C1: `"alice"` and `"bob"` are registered, `"alice"` sends
`"hello"`; the connection of `"bob"` gets one write of `"hello"`. -/
theorem relay_delivers_to_others_witness :
    colon ∉ alice ∧
    Event.publish chatChannel (Sprintf alice hello) ∈ publishMessage false alice hello ∧
    List.count (Event.write bob 2 hello)
      (broadcastMessage noErr (Sprintf alice hello) aliceBob).2 = 1 :=
  ⟨by decide, by decide,
    (relay_delivers_to_others aliceBob noErr false alice hello (Sprintf alice hello)
      (by decide) (by decide)).1 bob 2 (by decide) (by decide)⟩

/-- C1 as stated fails for a user identity with a `':'`: with `"a"` on
connection 1 and `"a:b"` on connection 2, the frame `"hello"` sent by `"a:b"`
is relayed as one write of `"b:hello"` to the connection of `"a:b"` itself, and
the other registered user `"a"` gets no write of `"hello"`. -/
theorem relay_colon_sender_counterexample :
    colonUsers.Users.lookup justA = some 1 ∧
    colonUsers.Users.lookup aColonB = some 2 ∧
    Event.publish chatChannel (Sprintf aColonB hello) ∈ publishMessage false aColonB hello ∧
    (broadcastMessage noErr (Sprintf aColonB hello) colonUsers).2 =
      [Event.write aColonB 2 bHello] ∧
    List.count (Event.write justA 1 hello)
      (broadcastMessage noErr (Sprintf aColonB hello) colonUsers).2 = 0 := by
  decide

/-- C2: for every registry state, every payload that decodes to
`(sender, body)` and whichever writes fail, `broadcastMessage` attempts exactly
one write of `body` for each registry entry whose key differs from `sender`,
attempts no write for the entry whose key is `sender` (every write it attempts
is a write of `body` for an entry with another key), and leaves the state
as it was. -/
theorem broadcast_skips_sender (s : State) (werr : GoString → Conn → Bool)
    (payload sender body : GoString) (h : SplitN2 payload = [sender, body]) :
    (∀ v c, s.Users.lookup v = some c → v ≠ sender →
      List.count (Event.write v c body) (broadcastMessage werr payload s).2 = 1) ∧
    (∀ c b, Event.write sender c b ∉ (broadcastMessage werr payload s).2) ∧
    (∀ v c b, Event.write v c b ∈ (broadcastMessage werr payload s).2 →
      v ≠ sender ∧ b = body ∧ s.Users.lookup v = some c) ∧
    (broadcastMessage werr payload s).1 = s := by
  have hs := fanout_spec werr payload sender body s h
  exact ⟨hs.1, fun c b hm => (hs.2 sender c b hm).1 rfl, hs.2, broadcastMessage_state _ _ _⟩

/-- Witness of C2: every write fails, `"carol"` is the sender; `"alice"` and
`"bob"` both get their write. -/
theorem broadcast_skips_sender_witness :
    SplitN2 (Sprintf carol hello) = [carol, hello] ∧
    List.count (Event.write alice 1 hello)
      (broadcastMessage allErr (Sprintf carol hello) aliceBob).2 = 1 ∧
    List.count (Event.write bob 2 hello)
      (broadcastMessage allErr (Sprintf carol hello) aliceBob).2 = 1 :=
  ⟨by decide,
    (broadcast_skips_sender aliceBob allErr (Sprintf carol hello) carol hello (by decide)).1
      alice 1 (by decide) (by decide),
    (broadcast_skips_sender aliceBob allErr (Sprintf carol hello) carol hello (by decide)).1
      bob 2 (by decide) (by decide)⟩

/-- C3: for every sender without `':'` and every body, the payload that
`publishMessage` builds is `sender ++ ":" ++ body`, `strings.SplitN(·, ":", 2)`
decodes it to `[sender, body]`, and `broadcastMessage` fans out with exactly
that sender and that body. -/
theorem decode_published_payload (sender body : GoString) (err : Bool)
    (werr : GoString → Conn → Bool) (s : State) (h : colon ∉ sender) :
    Event.publish chatChannel (Sprintf sender body) ∈ publishMessage err sender body ∧
    (∀ ch p, Event.publish ch p ∈ publishMessage err sender body →
      SplitN2 p = [sender, body]) ∧
    broadcastMessage werr (Sprintf sender body) s =
      (s, broadcastLoop werr sender body s.Users.entries) := by
  refine ⟨by simp [publishMessage], ?_, ?_⟩
  · intro ch p hp
    rw [publishMessage_payload err sender body ch p hp]
    exact SplitN2_Sprintf sender body h
  · exact broadcastMessage_of_split werr _ sender body s (SplitN2_Sprintf sender body h)

/-- Witness of C3: sender `"alice"`, body `"hi:there"`. -/
theorem decode_published_payload_witness :
    colon ∉ alice ∧ SplitN2 (Sprintf alice hiThere) = [alice, hiThere] :=
  ⟨by decide,
    (decode_published_payload alice hiThere false noErr aliceBob (by decide)).2.1
      chatChannel (Sprintf alice hiThere) (by decide)⟩

/-- C4: for every payload without `':'` and every registry state,
`broadcastMessage` logs the decode error, attempts no write and leaves the
state (the registry with it) as it was. -/
theorem broadcast_malformed (s : State) (werr : GoString → Conn → Bool) (payload : GoString)
    (h : colon ∉ payload) :
    broadcastMessage werr payload s = (s, [Event.log LogLine.invalidFormat]) ∧
    (∀ v c b, Event.write v c b ∉ (broadcastMessage werr payload s).2) ∧
    (broadcastMessage werr payload s).1.Users = s.Users := by
  have he : broadcastMessage werr payload s = (s, [Event.log LogLine.invalidFormat]) := by
    simp [broadcastMessage, SplitN2_of_not_mem h]
  rw [he]
  simp

/-- Witness of C4: the payload `"malformed"`. -/
theorem broadcast_malformed_witness :
    colon ∉ malformed ∧
    broadcastMessage noErr malformed aliceBob = (aliceBob, [Event.log LogLine.invalidFormat]) :=
  ⟨by decide, (broadcast_malformed aliceBob noErr malformed (by decide)).1⟩

/-- C5: starting from the empty registry, connection 1 registers as
`"alice"`, then connection 2 registers as `"alice"`: the registry maps
`"alice"` to connection 2. The pump of connection 1 then exits and runs its
deferred function: the registry holds no entry for `"alice"` any more, although
connection 2 was not closed (the only close is that of connection 1). -/
theorem stale_pump_exit_drops_new_entry :
    (handleChat_register alice 2 (handleChat_register alice 1 State.init).1).1.Users.lookup alice
      = some 2 ∧
    (handleChat_deferred alice 1
      (handleChat_register alice 2 (handleChat_register alice 1 State.init).1).1).1.Users.lookup
        alice = none ∧
    (handleChat_deferred alice 1
      (handleChat_register alice 2 (handleChat_register alice 1 State.init).1).1).2
      = [Event.close 1, Event.log (LogLine.userDisconnected alice)] := by
  decide

/-- C6 (amended): for every registry state, the close-all step of `shutdown`
closes every registered connection, closes nothing else, and leaves the
registry as it was; so does `shutdown` as a whole. -/
theorem closeAll_closes_registered (s : State) (unsubErr shutErr : Bool) :
    (∀ u c, s.Users.lookup u = some c → Event.close c ∈ (shutdown_closeAll s).2) ∧
    (∀ c, Event.close c ∈ (shutdown_closeAll s).2 → ∃ u, s.Users.lookup u = some c) ∧
    (shutdown_closeAll s).1 = s ∧
    (shutdown unsubErr shutErr s).1.Users = s.Users := by
  refine ⟨?_, ?_, rfl, rfl⟩
  · intro u c h
    exact (mem_closeLoop c _).2 ⟨u, AList.mem_lookup_iff.1 h⟩
  · intro c h
    obtain ⟨u, hu⟩ := (mem_closeLoop c _).1 h
    exact ⟨u, AList.mem_lookup_iff.2 hu⟩

/-- Witness of C6: with `"alice"` on connection 1 and `"bob"` on connection 2,
both connections are closed. -/
theorem closeAll_closes_registered_witness :
    Event.close 1 ∈ (shutdown_closeAll aliceBob).2 ∧
    Event.close 2 ∈ (shutdown_closeAll aliceBob).2 :=
  ⟨(closeAll_closes_registered aliceBob false false).1 alice 1 (by decide),
    (closeAll_closes_registered aliceBob false false).1 bob 2 (by decide)⟩

/-- C6 as stated fails: with `"alice"` and `"bob"` registered, the registry
is not empty after the close-all step; both entries are still there. -/
theorem closeAll_registry_not_empty_counterexample :
    (shutdown_closeAll aliceBob).1.Users.entries ≠ [] ∧
    (shutdown_closeAll aliceBob).1.Users.lookup alice = some 1 ∧
    (shutdown_closeAll aliceBob).1.Users.lookup bob = some 2 := by
  decide

/-- C7 (amended): `shutdown` performs, in this order, the closes of all
registered connections, then the unsubscription from `chatChannel`, then
`server.Shutdown` with the 10-second deadline, and nothing else but log lines;
the listener keeps accepting connections through the first two steps and
stops with the third. -/
theorem shutdown_order (s : State) (unsubErr shutErr : Bool) :
    (∃ A B C, (shutdown unsubErr shutErr s).2 =
        A ++ Event.unsubscribe chatChannel :: B ++ Event.serverShutdown 10 :: C ∧
      (∀ u c, s.Users.lookup u = some c → Event.close c ∈ A) ∧
      (∀ e ∈ A, (∃ line, e = Event.log line) ∨ (∃ c, e = Event.close c)) ∧
      (∀ e ∈ B ++ C, ∃ line, e = Event.log line)) ∧
    (shutdown_closeAll s).1.listening = s.listening ∧
    (shutdown_unsubscribe unsubErr (shutdown_closeAll s).1).1.listening = s.listening ∧
    (shutdown unsubErr shutErr s).1.listening = false := by
  refine ⟨⟨Event.log LogLine.shutdownInitiated :: closeLoop s.Users.entries,
    (if unsubErr then [Event.log LogLine.failedUnsubscribe] else []),
    [Event.log (if shutErr then LogLine.failedShutdown else LogLine.shutDownOk)],
    ?_, ?_, ?_, ?_⟩, rfl, rfl, rfl⟩
  · simp [shutdown, shutdown_closeAll, shutdown_unsubscribe, shutdown_server]
  · intro u c h
    exact List.mem_cons_of_mem _ ((mem_closeLoop c _).2 ⟨u, AList.mem_lookup_iff.1 h⟩)
  · intro e he
    rcases List.mem_cons.1 he with h | h
    · exact Or.inl ⟨_, h⟩
    · exact closeLoop_log_or_close _ e h
  · intro e he
    cases unsubErr
    · simp at he
      exact ⟨_, he⟩
    · simp at he
      rcases he with h | h <;> exact ⟨_, h⟩

/-- Witness of C7: with `"alice"` and `"bob"` registered, the whole sequence. -/
theorem shutdown_order_witness :
    (shutdown false false aliceBob).2 =
      [Event.log LogLine.shutdownInitiated,
       Event.close 2, Event.log (LogLine.closedConnection bob),
       Event.close 1, Event.log (LogLine.closedConnection alice),
       Event.unsubscribe chatChannel,
       Event.serverShutdown 10, Event.log LogLine.shutDownOk] ∧
    (shutdown false false aliceBob).1.listening = false :=
  ⟨by decide, (shutdown_order aliceBob false false).2.2.2⟩

/-- C7 as stated fails: with `"alice"` and `"bob"` registered, the listener
is still open when the close-all step has run, and a new connection 3 for
`"carol"` is then accepted and registered. -/
theorem shutdown_accepts_after_closeAll_counterexample :
    (shutdown_closeAll aliceBob).1.listening = true ∧
    (accept carol 3 (shutdown_closeAll aliceBob).1).map (fun r => r.1.Users.lookup carol)
      = some (some 3) ∧
    (shutdown false false aliceBob).2.head? = some (Event.log LogLine.shutdownInitiated) ∧
    (shutdown false false aliceBob).2.tail.head? = some (Event.close 2) := by
  decide

/-- C8: for every registry state in which the pump of `(u, c)` exits (its
deferred function deletes the entry of `u` and closes `c`), and whatever
payloads are relayed afterwards, a later `broadcastMessage` attempts no write
for the entry of `u`, none to the connection `c` (when `c` was stored under no
other name), and still makes one write of the body for every other registered
user that is not the sender. -/
theorem no_write_after_pump_exit (s : State) (u : GoString) (c : Conn)
    (werr0 : Nat → GoString → Conn → Bool) (earlier : List GoString)
    (werr : GoString → Conn → Bool) (payload : GoString) :
    (∀ c1 b, Event.write u c1 b ∉ (broadcastMessage werr payload
      (startChatBroadcaster werr0 earlier (handleChat_deferred u c s).1).1).2) ∧
    ((∀ e ∈ s.Users.entries, e.2 = c → e.1 = u) →
      ∀ v b, Event.write v c b ∉ (broadcastMessage werr payload
        (startChatBroadcaster werr0 earlier (handleChat_deferred u c s).1).1).2) ∧
    (∀ sender body, SplitN2 payload = [sender, body] →
      ∀ v c1, s.Users.lookup v = some c1 → v ≠ u → v ≠ sender →
        List.count (Event.write v c1 body) (broadcastMessage werr payload
          (startChatBroadcaster werr0 earlier (handleChat_deferred u c s).1).1).2 = 1) := by
  rw [startChatBroadcaster_state]
  have key : ∀ v c1 b, Event.write v c1 b ∈
      (broadcastMessage werr payload (handleChat_deferred u c s).1).2 →
      v ≠ u ∧ s.Users.lookup v = some c1 := by
    intro v c1 b hm
    unfold broadcastMessage at hm
    split at hm
    · rename_i fromUser message _
      have h2 := ((mem_broadcastLoop_write werr fromUser message v c1 b _).1 hm).1
      have h3 : (s.Users.erase u).lookup v = some c1 := AList.mem_lookup_iff.2 h2
      have hne : v ≠ u := by
        intro e
        rw [e, AList.lookup_erase] at h3
        exact Option.noConfusion h3
      rw [AList.lookup_erase_ne hne] at h3
      exact ⟨hne, h3⟩
    · simp at hm
  refine ⟨fun c1 b hm => (key u c1 b hm).1 rfl, ?_, ?_⟩
  · intro hinj v b hm
    have h := key v c b hm
    exact h.1 (hinj ⟨v, c⟩ (AList.mem_lookup_iff.1 h.2) rfl)
  · intro sender body hsp v c1 hl hvu hvs
    have hl2 : (handleChat_deferred u c s).1.Users.lookup v = some c1 := by
      show (s.Users.erase u).lookup v = some c1
      rw [AList.lookup_erase_ne hvu]
      exact hl
    exact (fanout_spec werr payload sender body _ hsp).1 v c1 hl2 hvs

/-- Witness of C8: `"alice"` (connection 1) and `"bob"` (connection 2) are
registered, the pump of `"alice"` exits, a malformed payload goes by, then
`"carol"` sends `"hello"`: nothing is written to connection 1 under the name
`"bob"`, and `"bob"` gets its write. -/
theorem no_write_after_pump_exit_witness :
    (∀ e ∈ aliceBob.Users.entries, e.2 = 1 → e.1 = alice) ∧
    Event.write bob 1 hello ∉ (broadcastMessage noErr (Sprintf carol hello)
      (startChatBroadcaster (fun _ => noErr) [malformed]
        (handleChat_deferred alice 1 aliceBob).1).1).2 ∧
    List.count (Event.write bob 2 hello) (broadcastMessage noErr (Sprintf carol hello)
      (startChatBroadcaster (fun _ => noErr) [malformed]
        (handleChat_deferred alice 1 aliceBob).1).1).2 = 1 :=
  ⟨by decide,
    (no_write_after_pump_exit aliceBob alice 1 (fun _ => noErr) [malformed] noErr
      (Sprintf carol hello)).2.1 (by decide) bob hello,
    (no_write_after_pump_exit aliceBob alice 1 (fun _ => noErr) [malformed] noErr
      (Sprintf carol hello)).2.2 carol hello (by decide) bob 2 (by decide) (by decide)
      (by decide)⟩

/-- C9: after every sequence of registrations and unregistrations that starts
from the empty registry, the registry holds at most one handle per user
identity; and right after `Users[u] = h` the handle stored for `u` is `h` and
no other one, the other users keeping what they had. -/
theorem registry_one_handle_per_user (ops : List RegOp) (u : GoString) (h : Conn) :
    (∀ v h1 h2, Sigma.mk v h1 ∈ (runOps ops State.init).Users.entries →
      Sigma.mk v h2 ∈ (runOps ops State.init).Users.entries → h1 = h2) ∧
    (runOps ops State.init).Users.keys.Nodup ∧
    (runOps (ops ++ [RegOp.register u h]) State.init).Users.lookup u = some h ∧
    (∀ h1, Sigma.mk u h1 ∈ (runOps (ops ++ [RegOp.register u h]) State.init).Users.entries →
      h1 = h) ∧
    (∀ v, v ≠ u → (runOps (ops ++ [RegOp.register u h]) State.init).Users.lookup v =
      (runOps ops State.init).Users.lookup v) := by
  have hrun : (runOps (ops ++ [RegOp.register u h]) State.init).Users =
      (runOps ops State.init).Users.insert u h := by
    simp [runOps, RegOp.apply, handleChat_register]
  refine ⟨?_, AList.keys_nodup _, ?_, ?_, ?_⟩
  · intro v h1 h2 m1 m2
    exact (runOps ops State.init).Users.nodupKeys.eq_of_mk_mem m1 m2
  · rw [hrun, AList.lookup_insert]
  · intro h1 m1
    have h2 := AList.mem_lookup_iff.2 m1
    rw [hrun, AList.lookup_insert] at h2
    exact (Option.some.inj h2).symm
  · intro v hv
    rw [hrun, AList.lookup_insert_ne hv]

/-- Witness of C9: `"alice"` registers connection 1, `"bob"` connection 2,
`"alice"` connection 3: the handle of `"alice"` is 3, that of `"bob"` still 2. -/
theorem registry_one_handle_per_user_witness :
    (runOps [RegOp.register alice 1, RegOp.register bob 2, RegOp.register alice 3]
      State.init).Users.lookup alice = some 3 ∧
    (runOps [RegOp.register alice 1, RegOp.register bob 2, RegOp.register alice 3]
      State.init).Users.lookup bob =
      (runOps [RegOp.register alice 1, RegOp.register bob 2] State.init).Users.lookup bob :=
  ⟨(registry_one_handle_per_user [RegOp.register alice 1, RegOp.register bob 2] alice 3).2.2.1,
    (registry_one_handle_per_user [RegOp.register alice 1, RegOp.register bob 2]
      alice 3).2.2.2.2 bob (by decide)⟩

/-- C10: for every state and user `u`, running `delete(Users, u)` (the
deferred function of a pump) twice in a row leaves the same state as running it
once, and running it when `u` is not registered leaves the state unchanged;
the step has no error result. -/
theorem unregister_idempotent (s : State) (u : GoString) (c c1 : Conn) :
    (handleChat_deferred u c1 (handleChat_deferred u c s).1).1 = (handleChat_deferred u c s).1 ∧
    (u ∉ s.Users → (handleChat_deferred u c s).1 = s) := by
  refine ⟨?_, ?_⟩
  · simp [handleChat_deferred, erase_idem]
  · intro h
    simp [handleChat_deferred, erase_of_not_mem _ _ h]

/-- Witness of C10: `"carol"` is not registered; unregistering it changes
nothing. -/
theorem unregister_idempotent_witness :
    carol ∉ aliceBob.Users ∧ (handleChat_deferred carol 3 aliceBob).1 = aliceBob :=
  ⟨by decide, (unregister_idempotent aliceBob carol 3 3).2 (by decide)⟩

end RedisChat
